import Mathlib

/-!
Verification development for the Enigma landing-page animation engine
(src/script.js and the unnamed near-duplicate variant).

The first part shallowly embeds the code: the multilingual hero cycle
(configuration constants, language list, the hero element's mutable
attributes, the interval/timeout scheduling expressed as explicit state
and schedules), the statistics counter's per-frame display formula, the
throttle rate limiter, the stats-container intersection guard and the
scroll-reveal callback.  The second part states and proves properties of
these definitions.
-/

/-- A language entry of the multilingual hero banner
(`LANGUAGES` in src/script.js, lines 18-25): display text, BCP-47 code,
human-readable label. -/
structure LanguageEntry where
  text : String
  lang : String
  label : String
  deriving DecidableEq, Repr

/-- The fixed ordered language list (src/script.js lines 18-25). -/
def LANGUAGES : List LanguageEntry :=
  [⟨"ENIGMA", "en", "English"⟩,
   ⟨"एनिग्मा", "hi", "Hindi"⟩,
   ⟨"ಎನಿಗ್ಮಾ", "kn", "Kannada"⟩,
   ⟨"एनिग्मा", "mr", "Marathi"⟩,
   ⟨"એનિગ્મા", "gu", "Gujarati"⟩,
   ⟨"এনিগ্মা", "bn", "Bengali"⟩]

/-- Fallback entry for out-of-range indexing; the code only ever indexes
`LANGUAGES` with values reduced mod `LANGUAGES.length`, so it is unused. -/
def noLanguage : LanguageEntry := ⟨"", "", ""⟩

/-- `ANIMATION_INTERVAL` constant (src/script.js line 16), milliseconds. -/
def ANIMATION_INTERVAL : Nat := 3000

/-- `FADE_DURATION` constant (src/script.js line 17), milliseconds. -/
def FADE_DURATION : Nat := 800

/-- `element.classList.add c`: a DOM class list is a set of tokens, so the
token is appended only when absent. -/
def classAdd (cs : List String) (c : String) : List String :=
  if c ∈ cs then cs else cs ++ [c]

/-- `element.classList.remove c`: drops the token from the class set. -/
def classRemove (cs : List String) (c : String) : List String :=
  cs.filter (fun x => x != c)

/-- The mutable attributes of the hero text element that the multilingual
animation reads and writes: text content, `lang` attribute, `aria-label`,
`aria-live`, and the class list. -/
structure HeroElement where
  textContent : String
  langAttr : String
  ariaLabel : String
  ariaLive : String
  classes : List String
  deriving DecidableEq, Repr

/-- `updateLanguageText` (src/script.js lines 194-208): writes the entry's
text, `lang` attribute and `aria-label` (label ++ ": " ++ text). -/
def updateLanguageText (e : HeroElement) (languageIndex : Nat) : HeroElement :=
  let language := LANGUAGES.getD languageIndex noLanguage
  { e with
    textContent := language.text
    langAttr := language.lang
    ariaLabel := language.label ++ ": " ++ language.text }

/-- First step of `animateLanguageChange` (line 171): add the `fade-out`
class. -/
def heroAfterFadeOut (e : HeroElement) : HeroElement :=
  { e with classes := classAdd e.classes "fade-out" }

/-- The halfway callback of `animateLanguageChange` (lines 174-179): swap
the text/lang/label, remove `fade-out`, add `fade-in`. -/
def heroAfterSwap (e : HeroElement) (languageIndex : Nat) : HeroElement :=
  let e := updateLanguageText e languageIndex
  { e with classes := classAdd (classRemove e.classes "fade-out") "fade-in" }

/-- The inner cleanup callback of `animateLanguageChange` (lines 182-184):
remove the `fade-in` class. -/
def heroAfterFadeInCleanup (e : HeroElement) : HeroElement :=
  { e with classes := classRemove e.classes "fade-in" }

/-- `animateLanguageChange` (src/script.js lines 169-187) as a schedule of
(absolute time from the call, element state after that step):
`fade-out` is added immediately; the swap callback runs via
`setTimeout(..., FADE_DURATION / 2)`; a timeout nested inside the swap
callback removes `fade-in` a further `FADE_DURATION` later, i.e. at
absolute time `FADE_DURATION / 2 + FADE_DURATION`. -/
def animateLanguageChange (e : HeroElement) (languageIndex : Nat) :
    List (Nat × HeroElement) :=
  let e1 := heroAfterFadeOut e
  let e2 := heroAfterSwap e1 languageIndex
  let e3 := heroAfterFadeInCleanup e2
  [(0, e1), (FADE_DURATION / 2, e2), (FADE_DURATION / 2 + FADE_DURATION, e3)]

/-- The module-level state of the multilingual animation system together
with the pool of live `setInterval` timers.  `animationInterval` mirrors
the module variable of the same name (a handle or `null`);
`liveIntervals` records which interval handles are actually running
(`setInterval` adds one, `clearInterval` removes one); `nextHandle`
generates fresh positive handles, as the platform does. -/
structure MLState where
  currentLanguageIndex : Nat
  animationInterval : Option Nat
  prefersReducedMotion : Bool
  hero : HeroElement
  liveIntervals : List Nat
  nextHandle : Nat
  deriving DecidableEq, Repr

/-- `stopMultilingualAnimation` (src/script.js lines 213-218): when a
handle is stored, clear that interval and null the handle. -/
def stopMultilingualAnimation (s : MLState) : MLState :=
  match s.animationInterval with
  | some h =>
      { s with
        liveIntervals := s.liveIntervals.erase h
        animationInterval := none }
  | none => s

/-- `startLanguageCycle` (src/script.js lines 150-162): display the entry
at the current index, then create a fresh interval and store its handle.
Note the source never clears a previously stored interval here. -/
def startLanguageCycle (s : MLState) : MLState :=
  let s := { s with hero := updateLanguageText s.hero s.currentLanguageIndex }
  { s with
    animationInterval := some s.nextHandle
    liveIntervals := s.nextHandle :: s.liveIntervals
    nextHandle := s.nextHandle + 1 }

/-- `initMultilingualAnimation` (src/script.js lines 117-144).  `mediaMatches`
is the platform's current reduced-motion signal, read at entry.  The
accessibility attributes are set before the reduced-motion check; with
reduced motion the element is pinned to `LANGUAGES[0]` and no timer is
started, otherwise `startLanguageCycle` runs. -/
def initMultilingualAnimation (mediaMatches : Bool) (s : MLState) : MLState :=
  let s := { s with prefersReducedMotion := mediaMatches }
  let s := { s with
    hero := { s.hero with
      ariaLive := "polite"
      ariaLabel := "Company name in multiple languages" } }
  if s.prefersReducedMotion then
    { s with
      hero := { s.hero with
        textContent := (LANGUAGES.getD 0 noLanguage).text
        langAttr := (LANGUAGES.getD 0 noLanguage).lang } }
  else
    startLanguageCycle s

/-- The media-query listener registered by `handleMotionPreferenceChange`
(src/script.js lines 227-243).  `mediaMatches` is the new platform value.  On
reduced motion: stop, pin text/lang to entry 0, strip both fade classes
(the index and `aria-label` are untouched).  Otherwise re-initialize. -/
def motionChangeListener (mediaMatches : Bool) (s : MLState) : MLState :=
  let s := { s with prefersReducedMotion := mediaMatches }
  if s.prefersReducedMotion then
    let s := stopMultilingualAnimation s
    { s with
      hero := { s.hero with
        textContent := (LANGUAGES.getD 0 noLanguage).text
        langAttr := (LANGUAGES.getD 0 noLanguage).lang
        classes := classRemove (classRemove s.hero.classes "fade-out") "fade-in" } }
  else
    initMultilingualAnimation mediaMatches s

/-- The `visibilitychange` listener (src/script.js lines 789-799): hide
stops the cycle; show re-initializes unless reduced motion is set.  The
module variable `prefersReducedMotion` tracks the platform signal, so the
re-initialization reads it back. -/
def visibilityChangeListener (hidden : Bool) (s : MLState) : MLState :=
  if hidden then
    stopMultilingualAnimation s
  else
    if s.prefersReducedMotion then s
    else initMultilingualAnimation s.prefersReducedMotion s

/-- The page-level events that drive the multilingual animation state
after load: a reduced-motion media-query change and a page visibility
change. -/
inductive PageEvent where
  | motionChange (mediaMatches : Bool)
  | visibility (hidden : Bool)
  deriving DecidableEq, Repr

/-- Dispatch one page event to its listener. -/
def stepEvent (ev : PageEvent) (s : MLState) : MLState :=
  match ev with
  | PageEvent.motionChange m => motionChangeListener m s
  | PageEvent.visibility h => visibilityChangeListener h s

/-- Run a sequence of page events in order. -/
def runEvents (trace : List PageEvent) (s : MLState) : MLState :=
  trace.foldl (fun s ev => stepEvent ev s) s

/-- The hero element before any script runs: no attributes set by the
script yet, no classes. -/
def freshHero : HeroElement :=
  { textContent := "", langAttr := "", ariaLabel := "", ariaLive := ""
    classes := [] }

/-- Module state at script load (src/script.js lines 28-30):
index 0, null handle, no live interval; handles start at 1 since
`setInterval` returns positive ids. -/
def freshState : MLState :=
  { currentLanguageIndex := 0
    animationInterval := none
    prefersReducedMotion := false
    hero := freshHero
    liveIntervals := []
    nextHandle := 1 }

/-- State after `init` ran `initMultilingualAnimation` on page load,
given the platform's reduced-motion signal. -/
def initialState (mediaMatches : Bool) : MLState :=
  initMultilingualAnimation mediaMatches freshState

/-- The body of the `setInterval` callback in `startLanguageCycle`
(src/script.js lines 155-161) combined with the eventual effect of the
`animateLanguageChange` it triggers: advance the index mod the list
length and run the fade schedule to completion on the hero element. -/
def intervalTick (s : MLState) : MLState :=
  let i := (s.currentLanguageIndex + 1) % LANGUAGES.length
  { s with
    currentLanguageIndex := i
    hero := heroAfterFadeInCleanup (heroAfterSwap (heroAfterFadeOut s.hero) i) }

/-- The index update performed by each interval tick
(src/script.js line 157). -/
def nextLanguageIndex (i : Nat) : Nat :=
  (i + 1) % LANGUAGES.length

/-- The ease-out-cubic easing used by both counter variants
(src/unnamed/part_000 line 656, src/script.js line 535). -/
def easeOutCubic (progress : ℚ) : ℚ :=
  1 - (1 - progress) ^ 3

/-- `progress = Math.min(elapsed / duration, 1)` computed on each frame
(src/unnamed/part_000 line 653, src/script.js line 533). -/
def counterProgress (elapsed duration : ℚ) : ℚ :=
  min (elapsed / duration) 1

/-- The integer shown on a frame: `Math.floor(easedProgress * targetCount)`
(src/unnamed/part_000 line 658). -/
def displayedCount (targetCount : Nat) (elapsed duration : ℚ) : ℤ :=
  ⌊easeOutCubic (counterProgress elapsed duration) * (targetCount : ℚ)⌋

/-- One frame of `updateCount` inside `animateStatistics`
(src/unnamed/part_000 lines 651-667): the string written to
`element.textContent` as a function of the elapsed time.  While
`progress < 1` it is the floored eased count, afterwards the exact
target; either way a `+` is appended when `targetCount >= 100`. -/
def updateCountText (targetCount : Nat) (elapsed duration : ℚ) : String :=
  let progress := min (elapsed / duration) 1
  let easedProgress := 1 - (1 - progress) ^ 3
  let currentCount : ℤ := ⌊easedProgress * (targetCount : ℚ)⌋
  if progress < 1 then
    toString currentCount ++ (if targetCount ≥ 100 then "+" else "")
  else
    toString (targetCount : ℤ) ++ (if targetCount ≥ 100 then "+" else "")

/-- One frame of `updateNumber` inside `animateStats`
(src/script.js lines 531-547): same arithmetic, but the bare number is
written with no suffix in either branch. -/
def updateNumberText (target : Nat) (elapsed duration : ℚ) : String :=
  let progress := min (elapsed / duration) 1
  let easeOutCubicVal := 1 - (1 - progress) ^ 3
  let current : ℤ := ⌊(target : ℚ) * easeOutCubicVal⌋
  if progress < 1 then
    toString current
  else
    toString (target : ℤ)

/-- `throttle` (src/script.js lines 250-261, src/unnamed/part_000 lines
169-180) applied to a list of call times (milliseconds, in arrival
order), returning the times whose calls reach the wrapped function.  The
closure flag `inThrottle` is true exactly on the half-open window
`[start, start + limit)` that begins at each executed call (the
`setTimeout` resets it at `start + limit`); the state below is the start
of the window opened by the last executed call, `none` before the first
call. -/
def throttleRun (limit : Nat) : List Nat → Option Nat → List Nat
  | [], _ => []
  | t :: ts, none => t :: throttleRun limit ts (some t)
  | t :: ts, some start =>
      if t < start + limit then throttleRun limit ts (some start)
      else t :: throttleRun limit ts (some t)

/-- The state the stats-container guard manipulates:
`STATE.statsAnimated` plus a count of how many times the counter
animation has been launched. -/
structure StatsState where
  statsAnimated : Bool
  runs : Nat
  deriving DecidableEq, Repr

/-- The body of the `entries.forEach` in the stats observer callback
(src/script.js lines 507-512): if the entry intersects and the flag is
still clear, set the flag and launch the counter animation (modelled as
incrementing `runs`). -/
def statsEntryStep (s : StatsState) (isIntersecting : Bool) : StatsState :=
  if isIntersecting && !s.statsAnimated then
    { statsAnimated := true, runs := s.runs + 1 }
  else s

/-- One invocation of the stats `IntersectionObserver` callback
(src/script.js lines 506-513): process each reported entry in order. -/
def statsObserverCallback (s : StatsState) (entries : List Bool) : StatsState :=
  entries.foldl statsEntryStep s

/-- A whole page life of stats observer callback invocations starting
from the load-time state `{ statsAnimated := false, runs := 0 }`
(src/script.js line 104). -/
def statsObserverRun (fires : List (List Bool)) : StatsState :=
  fires.foldl statsObserverCallback ⟨false, 0⟩

/-- One entry of the scroll-reveal `IntersectionObserver` callback
(src/script.js lines 728-734) acting on the element's class list: an
intersecting entry gains the `visible` class, a non-intersecting entry
is left alone. -/
def revealStep (cs : List String) (isIntersecting : Bool) : List String :=
  if isIntersecting then classAdd cs "visible" else cs

/-- An event sequence a browser can deliver: the page is hidden, the
reduced-motion preference turns on and then off again while hidden, and
the page becomes visible again. -/
def hiddenMotionFlipTrace : List PageEvent :=
  [PageEvent.visibility true, PageEvent.motionChange true,
   PageEvent.motionChange false, PageEvent.visibility false]

/-- Whether a page event keeps the reduced-motion preference switched on
(every visibility change does; a media-query change does exactly when its
new value is `true`). -/
def motionStaysReduced : PageEvent → Bool
  | PageEvent.motionChange m => m
  | PageEvent.visibility _ => true

/-! ### Helper lemmas about class-list operations -/

theorem mem_classAdd {cs : List String} {x c : String} :
    x ∈ classAdd cs c ↔ x ∈ cs ∨ x = c := by
  unfold classAdd
  by_cases h : c ∈ cs
  · simp only [if_pos h]
    constructor
    · exact Or.inl
    · rintro (hx | rfl)
      · exact hx
      · exact h
  · simp [if_neg h, List.mem_append]

theorem self_mem_classAdd (cs : List String) (c : String) :
    c ∈ classAdd cs c :=
  mem_classAdd.mpr (Or.inr rfl)

theorem classAdd_of_mem {cs : List String} {c : String} (h : c ∈ cs) :
    classAdd cs c = cs := by
  unfold classAdd
  exact if_pos h

theorem not_mem_classRemove_self (cs : List String) (c : String) :
    c ∉ classRemove cs c := by
  unfold classRemove
  intro h
  have := (List.mem_filter.mp h).2
  simp at this

theorem mem_of_mem_classRemove {cs : List String} {x c : String}
    (h : x ∈ classRemove cs c) : x ∈ cs :=
  (List.mem_filter.mp h).1

/-! ### Timer-uniqueness (C1) -/

/-- C1: the code violates the single-timer invariant.  Starting from a
normal page load (one live interval, handle 1), the realistic event
sequence "page hidden; reduced-motion turns on; reduced-motion turns off
again; page visible" leaves TWO intervals running: the motion-change
restart while hidden starts interval 2, and the visibility restart then
starts interval 3 without clearing it, because `startLanguageCycle`
never guards against an already-active timer.  The module handle names
only interval 3, so interval 2 can never be cleared again. -/
theorem duplicate_interval_after_hidden_motion_flip :
    (initialState false).liveIntervals = [1] ∧
    (runEvents hiddenMotionFlipTrace (initialState false)).liveIntervals = [3, 2] ∧
    (runEvents hiddenMotionFlipTrace (initialState false)).animationInterval = some 3 ∧
    2 ≤ (runEvents hiddenMotionFlipTrace (initialState false)).liveIntervals.length := by
  refine ⟨by decide, by decide, by decide, by decide⟩

/-! ### Scroll reveal (C9) -/

/-- C9: the scroll-reveal callback is idempotent for an intersecting
entry (applying it twice yields the same class list as applying it
once), and it is one-way: no invocation of the callback, intersecting or
not, ever removes the `visible` class once present. -/
theorem reveal_idempotent_one_way :
    (∀ cs : List String, revealStep (revealStep cs true) true = revealStep cs true) ∧
    (∀ (cs : List String) (b : Bool), "visible" ∈ cs → "visible" ∈ revealStep cs b) := by
  constructor
  · intro cs
    show classAdd (classAdd cs "visible") "visible" = classAdd cs "visible"
    exact classAdd_of_mem (self_mem_classAdd cs "visible")
  · intro cs b h
    cases b with
    | false => exact h
    | true => exact mem_classAdd.mpr (Or.inl h)

/-- Witness for C9 at concrete class lists. -/
theorem reveal_idempotent_one_way_witness :
    ("visible" ∈ (["fade-in-up", "visible"] : List String)) ∧
    revealStep (revealStep ["fade-in-up"] true) true = revealStep ["fade-in-up"] true ∧
    "visible" ∈ revealStep ["fade-in-up", "visible"] false := by
  refine ⟨by decide, reveal_idempotent_one_way.1 ["fade-in-up"],
    reveal_idempotent_one_way.2 ["fade-in-up", "visible"] false (by decide)⟩

/-! ### Throttle (C5) -/

theorem throttleRun_sublist (limit : Nat) :
    ∀ (ts : List Nat) (st : Option Nat), List.Sublist (throttleRun limit ts st) ts := by
  intro ts
  induction ts with
  | nil => intro st; cases st <;> exact List.Sublist.refl _
  | cons t ts ih =>
      intro st
      cases st with
      | none => exact List.Sublist.cons₂ t (ih (some t))
      | some start =>
          by_cases h : t < start + limit
          · simpa [throttleRun, if_pos h] using List.Sublist.cons t (ih (some start))
          · simpa [throttleRun, if_neg h] using List.Sublist.cons₂ t (ih (some t))

theorem throttleRun_chain_bounded (limit : Nat) :
    ∀ (ts : List Nat) (start : Nat),
      List.Chain' (fun a b => a + limit ≤ b) (throttleRun limit ts (some start)) ∧
      (∀ x ∈ throttleRun limit ts (some start), start + limit ≤ x) := by
  intro ts
  induction ts with
  | nil => intro start; exact ⟨List.chain'_nil, by intro x hx; cases hx⟩
  | cons t ts ih =>
      intro start
      by_cases h : t < start + limit
      · rw [throttleRun, if_pos h]
        exact ih start
      · rw [throttleRun, if_neg h]
        obtain ⟨hc, hb⟩ := ih t
        refine ⟨List.chain'_cons'.mpr ⟨?_, hc⟩, ?_⟩
        · intro y hy
          exact hb y (List.mem_of_mem_head? hy)
        · intro x hx
          rcases List.mem_cons.mp hx with rfl | hx
          · omega
          · have := hb x hx
            omega

/-- C5: the throttle wrapper executes the very first call immediately,
every executed call is one of the original calls at its original time
(dropped calls are not queued or replayed), any two consecutively
executed calls are at least `limit` apart (calls inside the window are
suppressed, the first call at or past the window's end fires
immediately), and on the spec's concrete schedule (calls at 0, 5 and
15 ms with a 10 ms limit) exactly the calls at 0 and 15 execute. -/
theorem throttle_leading_edge :
    (∀ (limit t : Nat) (ts : List Nat),
      (throttleRun limit (t :: ts) none).head? = some t) ∧
    (∀ (limit : Nat) (ts : List Nat) (st : Option Nat),
      List.Sublist (throttleRun limit ts st) ts) ∧
    (∀ (limit : Nat) (ts : List Nat) (st : Option Nat),
      List.Chain' (fun a b => a + limit ≤ b) (throttleRun limit ts st)) ∧
    throttleRun 10 [0, 5, 15] none = [0, 15] := by
  refine ⟨fun limit t ts => rfl, throttleRun_sublist, ?_, by decide⟩
  intro limit ts st
  cases st with
  | some start => exact (throttleRun_chain_bounded limit ts start).1
  | none =>
      cases ts with
      | nil => exact List.chain'_nil
      | cons t ts =>
          obtain ⟨hc, hb⟩ := throttleRun_chain_bounded limit ts t
          exact List.chain'_cons'.mpr ⟨fun y hy => hb y (List.mem_of_mem_head? hy), hc⟩

/-! ### Language index wrap-around (C6) -/

/-- C6: each interval tick advances the index by one modulo the length of
the language list, so the index stays a valid index into `LANGUAGES`
from any state whatsoever; and starting from the page-load state (index
0), after `n` full periods the index is `n % LANGUAGES.length` and the
hero shows exactly the text of `LANGUAGES[n % LANGUAGES.length]`. -/
theorem language_index_wraps :
    (∀ s : MLState, (intervalTick s).currentLanguageIndex < LANGUAGES.length) ∧
    (∀ n : Nat,
      (intervalTick^[n] (initialState false)).currentLanguageIndex
        = n % LANGUAGES.length ∧
      (intervalTick^[n] (initialState false)).hero.textContent
        = (LANGUAGES.getD (n % LANGUAGES.length) noLanguage).text) := by
  have hlen : LANGUAGES.length = 6 := rfl
  constructor
  · intro s
    show (s.currentLanguageIndex + 1) % LANGUAGES.length < LANGUAGES.length
    rw [hlen]
    omega
  · intro n
    induction n with
    | zero => exact ⟨rfl, rfl⟩
    | succ n ih =>
        obtain ⟨ih1, ih2⟩ := ih
        rw [Function.iterate_succ_apply']
        constructor
        · show ((intervalTick^[n] (initialState false)).currentLanguageIndex + 1)
              % LANGUAGES.length = (n + 1) % LANGUAGES.length
          rw [ih1, hlen]
          omega
        · show (LANGUAGES.getD
              (((intervalTick^[n] (initialState false)).currentLanguageIndex + 1)
                % LANGUAGES.length) noLanguage).text
            = (LANGUAGES.getD ((n + 1) % LANGUAGES.length) noLanguage).text
          rw [ih1, hlen]
          congr 2
          omega

/-! ### Stats animation runs exactly once (C4) -/

theorem statsFold_spec (entries : List Bool) :
    ∀ s : StatsState,
      (entries.foldl statsEntryStep s).statsAnimated
        = (s.statsAnimated || entries.any (fun b => b)) ∧
      (entries.foldl statsEntryStep s).runs
        = s.runs + (if s.statsAnimated then 0
                    else if entries.any (fun b => b) then 1 else 0) := by
  induction entries with
  | nil => intro s; cases h : s.statsAnimated <;> simp [h]
  | cons b bs ih =>
      intro s
      rw [List.foldl_cons]
      obtain ⟨ih1, ih2⟩ := ih (statsEntryStep s b)
      rw [ih1, ih2]
      cases hb : b <;> cases hs : s.statsAnimated <;>
        simp [statsEntryStep, hb, hs]

theorem statsRun_spec (fires : List (List Bool)) :
    ∀ s : StatsState,
      (fires.foldl statsObserverCallback s).statsAnimated
        = (s.statsAnimated || fires.any (fun entries => entries.any (fun b => b))) ∧
      (fires.foldl statsObserverCallback s).runs
        = s.runs + (if s.statsAnimated then 0
                    else if fires.any (fun entries => entries.any (fun b => b))
                         then 1 else 0) := by
  induction fires with
  | nil => intro s; cases h : s.statsAnimated <;> simp [h]
  | cons en fires ih =>
      intro s
      rw [List.foldl_cons]
      obtain ⟨ih1, ih2⟩ := ih (statsObserverCallback s en)
      obtain ⟨hc1, hc2⟩ := statsFold_spec en s
      simp only [statsObserverCallback] at ih1 ih2 ⊢
      rw [ih1, ih2]
      simp only [hc1, hc2]
      cases hen : en.any (fun b => b) <;> cases hs : s.statsAnimated <;>
        simp [hen, hs, Bool.or_assoc]

/-- C4: over any sequence of intersection-callback invocations in a page
life, the counter animation is launched exactly once when some entry
ever reports `isIntersecting = true` and never otherwise; the launch
count never exceeds 1 no matter how often the callback re-fires, and the
process-wide `statsAnimated` flag records exactly whether a launch
happened. -/
theorem stats_animation_runs_exactly_once (fires : List (List Bool)) :
    (statsObserverRun fires).runs
      = (if fires.any (fun entries => entries.any (fun b => b)) then 1 else 0) ∧
    (statsObserverRun fires).statsAnimated
      = fires.any (fun entries => entries.any (fun b => b)) ∧
    (statsObserverRun fires).runs ≤ 1 := by
  obtain ⟨h1, h2⟩ := statsRun_spec fires ⟨false, 0⟩
  unfold statsObserverRun
  have hruns : (List.foldl statsObserverCallback ⟨false, 0⟩ fires).runs
      = (if fires.any (fun entries => entries.any (fun b => b)) then 1 else 0) := by
    rw [h2]; simp
  have hflag : (List.foldl statsObserverCallback ⟨false, 0⟩ fires).statsAnimated
      = fires.any (fun entries => entries.any (fun b => b)) := by
    rw [h1]; simp
  refine ⟨hruns, hflag, ?_⟩
  rw [hruns]
  split <;> simp

/-! ### Reduced motion at initialization (C7) -/

theorem reducedIdle_invariant (trace : List PageEvent) :
    ∀ s : MLState, s.prefersReducedMotion = true → s.animationInterval = none →
      s.liveIntervals = [] →
      (∀ ev ∈ trace, motionStaysReduced ev = true) →
      (runEvents trace s).prefersReducedMotion = true ∧
      (runEvents trace s).animationInterval = none ∧
      (runEvents trace s).liveIntervals = [] := by
  induction trace with
  | nil => intro s h1 h2 h3 _; exact ⟨h1, h2, h3⟩
  | cons ev trace ih =>
      intro s h1 h2 h3 hall
      have hev : motionStaysReduced ev = true := hall ev (List.mem_cons_self ev trace)
      have hrest : ∀ e ∈ trace, motionStaysReduced e = true :=
        fun e he => hall e (List.mem_cons_of_mem ev he)
      have hstep : (stepEvent ev s).prefersReducedMotion = true ∧
          (stepEvent ev s).animationInterval = none ∧
          (stepEvent ev s).liveIntervals = [] := by
        cases ev with
        | motionChange m =>
            have hm : m = true := hev
            subst hm
            simp [stepEvent, motionChangeListener, stopMultilingualAnimation, h2, h3]
        | visibility hid =>
            cases hid with
            | true =>
                simp [stepEvent, visibilityChangeListener, stopMultilingualAnimation,
                  h1, h2, h3]
            | false =>
                simp [stepEvent, visibilityChangeListener, h1, h2, h3]
      have hrec := ih (stepEvent ev s) hstep.1 hstep.2.1 hstep.2.2 hrest
      simpa [runEvents, List.foldl_cons] using hrec

/-- C7: when the reduced-motion preference is on at page load, the
initializer pins the hero to the text and language code of
`LANGUAGES[0]` and stores no timer handle; and across any further
event sequence in which the preference never turns off, the handle stays
null and no interval is ever running. -/
theorem reduced_motion_never_schedules_timer (trace : List PageEvent)
    (h : ∀ ev ∈ trace, motionStaysReduced ev = true) :
    (initialState true).hero.textContent = (LANGUAGES.getD 0 noLanguage).text ∧
    (initialState true).hero.langAttr = (LANGUAGES.getD 0 noLanguage).lang ∧
    (initialState true).animationInterval = none ∧
    (initialState true).liveIntervals = [] ∧
    (runEvents trace (initialState true)).animationInterval = none ∧
    (runEvents trace (initialState true)).liveIntervals = [] := by
  have hinv := reducedIdle_invariant trace (initialState true)
    (by decide) (by decide) (by decide) h
  exact ⟨by decide, by decide, by decide, by decide, hinv.2.1, hinv.2.2⟩

/-- Witness for C7 on a concrete event trace: hide, show again, and a
media-query change that keeps reduced motion on. -/
theorem reduced_motion_never_schedules_timer_witness :
    (∀ ev ∈ [PageEvent.visibility true, PageEvent.visibility false,
        PageEvent.motionChange true], motionStaysReduced ev = true) ∧
    (runEvents [PageEvent.visibility true, PageEvent.visibility false,
        PageEvent.motionChange true] (initialState true)).animationInterval = none ∧
    (runEvents [PageEvent.visibility true, PageEvent.visibility false,
        PageEvent.motionChange true] (initialState true)).liveIntervals = [] := by
  refine ⟨by decide, ?_, ?_⟩
  · exact (reduced_motion_never_schedules_timer _ (by decide)).2.2.2.2.1
  · exact (reduced_motion_never_schedules_timer _ (by decide)).2.2.2.2.2

/-! ### Motion-preference flip frame effect and restart (C10) -/

/-- C10: when the reduced-motion preference flips to true while the cycle
is running (a handle is stored), the listener clears exactly that
interval and nulls the handle, pins the hero's text and `lang` attribute
to `LANGUAGES[0]`, strips both fade classes, and leaves both
`currentLanguageIndex` and the element's `aria-label` untouched; a
subsequent flip back to false restarts the cycle from the preserved
index — the displayed text is the entry at the old `currentLanguageIndex`,
not entry 0 — and stores a fresh handle. -/
theorem motion_flip_stops_and_restart_resumes (s : MLState) (hdl : Nat)
    (h : s.animationInterval = some hdl) :
    (motionChangeListener true s).animationInterval = none ∧
    (motionChangeListener true s).liveIntervals = s.liveIntervals.erase hdl ∧
    (motionChangeListener true s).hero.textContent = (LANGUAGES.getD 0 noLanguage).text ∧
    (motionChangeListener true s).hero.langAttr = (LANGUAGES.getD 0 noLanguage).lang ∧
    "fade-out" ∉ (motionChangeListener true s).hero.classes ∧
    "fade-in" ∉ (motionChangeListener true s).hero.classes ∧
    (motionChangeListener true s).currentLanguageIndex = s.currentLanguageIndex ∧
    (motionChangeListener true s).hero.ariaLabel = s.hero.ariaLabel ∧
    (motionChangeListener false (motionChangeListener true s)).currentLanguageIndex
      = s.currentLanguageIndex ∧
    (motionChangeListener false (motionChangeListener true s)).hero.textContent
      = (LANGUAGES.getD s.currentLanguageIndex noLanguage).text ∧
    ((motionChangeListener false (motionChangeListener true s)).animationInterval).isSome
      = true := by
  refine ⟨?_, ?_, ?_, ?_, ?_, ?_, ?_, ?_, ?_, ?_, ?_⟩ <;>
    simp [motionChangeListener, stopMultilingualAnimation, h,
      initMultilingualAnimation, startLanguageCycle, updateLanguageText,
      not_mem_classRemove_self, classRemove, List.mem_filter]

/-- Witness for C10 at the page-load state, whose stored handle is 1. -/
theorem motion_flip_stops_and_restart_resumes_witness :
    (initialState false).animationInterval = some 1 ∧
    (motionChangeListener true (initialState false)).animationInterval = none ∧
    (motionChangeListener false (motionChangeListener true (initialState false))).hero.textContent
      = (LANGUAGES.getD (initialState false).currentLanguageIndex noLanguage).text := by
  refine ⟨by decide, ?_, ?_⟩
  · exact (motion_flip_stops_and_restart_resumes (initialState false) 1 (by decide)).1
  · exact (motion_flip_stops_and_restart_resumes (initialState false) 1
      (by decide)).2.2.2.2.2.2.2.2.2.1

/-! ### Fade choreography timing (C3) -/

/-- C3 counterexample: in the fade schedule the `fade-in` class removal
is scheduled `FADE_DURATION` after the swap — absolute time 1200 ms for
an 800 ms fade — whereas the remaining fade duration after the halfway
swap would put it at absolute time 800 ms.  The schedule's last step
therefore does not fire at the remaining fade duration after the swap. -/
theorem fadeIn_cleanup_not_at_remaining_duration :
    (animateLanguageChange freshHero 1).map Prod.fst
      = [0, FADE_DURATION / 2, 1200] ∧
    FADE_DURATION / 2 + (FADE_DURATION - FADE_DURATION / 2) = 800 ∧
    (1200 : Nat) ≠ 800 := by
  refine ⟨by decide, by decide, by decide⟩

/-- C3 amended: in every language-change transition the text content,
`lang` attribute and accessible label are swapped to the target entry
exactly half the fade duration after fade-out is applied, and at that
same moment `fade-out` is removed and `fade-in` applied; but the
`fade-in` presentation state is removed a FULL fade duration after the
swap (absolute time `FADE_DURATION / 2 + FADE_DURATION` from the start
of the transition), not at the remaining half of the fade duration. -/
theorem animateLanguageChange_schedule (e : HeroElement) (languageIndex : Nat) :
    (animateLanguageChange e languageIndex).map Prod.fst
      = [0, FADE_DURATION / 2, FADE_DURATION / 2 + FADE_DURATION] ∧
    (∀ p ∈ animateLanguageChange e languageIndex, p.1 = FADE_DURATION / 2 →
      p.2.textContent = (LANGUAGES.getD languageIndex noLanguage).text ∧
      p.2.langAttr = (LANGUAGES.getD languageIndex noLanguage).lang ∧
      p.2.ariaLabel = (LANGUAGES.getD languageIndex noLanguage).label ++ ": "
        ++ (LANGUAGES.getD languageIndex noLanguage).text ∧
      "fade-out" ∉ p.2.classes ∧
      "fade-in" ∈ p.2.classes) ∧
    (∀ p ∈ animateLanguageChange e languageIndex,
        p.1 = FADE_DURATION / 2 + FADE_DURATION →
      "fade-in" ∉ p.2.classes ∧
      p.2.textContent = (LANGUAGES.getD languageIndex noLanguage).text) := by
  refine ⟨rfl, ?_, ?_⟩
  · intro p hp ht
    simp only [animateLanguageChange, List.mem_cons, List.mem_singleton,
      List.not_mem_nil, or_false] at hp
    rcases hp with rfl | rfl | rfl
    · simp [FADE_DURATION] at ht
    · refine ⟨rfl, rfl, rfl, ?_, ?_⟩
      · intro hmem
        rcases mem_classAdd.mp hmem with hmem | hne
        · exact not_mem_classRemove_self _ _ hmem
        · exact absurd hne (by decide)
      · exact self_mem_classAdd _ _
    · simp [FADE_DURATION] at ht
  · intro p hp ht
    simp only [animateLanguageChange, List.mem_cons, List.mem_singleton,
      List.not_mem_nil, or_false] at hp
    rcases hp with rfl | rfl | rfl
    · simp [FADE_DURATION] at ht
    · simp [FADE_DURATION] at ht
    · exact ⟨not_mem_classRemove_self _ _, rfl⟩

/-- Witness for C3's amended schedule at a concrete element and index:
the middle schedule entry (at 400 ms) carries the swapped Hindi entry
with `fade-in` present, and the last entry (at 1200 ms) has `fade-in`
removed. -/
theorem animateLanguageChange_schedule_witness :
    ((FADE_DURATION / 2, heroAfterSwap (heroAfterFadeOut freshHero) 1)
      ∈ animateLanguageChange freshHero 1) ∧
    (heroAfterSwap (heroAfterFadeOut freshHero) 1).textContent
      = (LANGUAGES.getD 1 noLanguage).text ∧
    "fade-in" ∈ (heroAfterSwap (heroAfterFadeOut freshHero) 1).classes ∧
    "fade-in" ∉ (heroAfterFadeInCleanup (heroAfterSwap (heroAfterFadeOut freshHero) 1)).classes := by
  have h2 := (animateLanguageChange_schedule freshHero 1).2.1
    (FADE_DURATION / 2, heroAfterSwap (heroAfterFadeOut freshHero) 1)
    (by decide) rfl
  have h3 := (animateLanguageChange_schedule freshHero 1).2.2
    (FADE_DURATION / 2 + FADE_DURATION,
      heroAfterFadeInCleanup (heroAfterSwap (heroAfterFadeOut freshHero) 1))
    (by decide) rfl
  exact ⟨by decide, h2.1, h2.2.2.2.2, h3.1⟩

/-! ### Statistics counter display (C2) -/

/-- C2 counterexample: on the final frame for target 100, the `script.js`
counter (`animateStats` / `updateNumber`) writes the bare number "100",
while the claimed suffix rule — realized only by the `animateStatistics`
variant — produces "100+"; the two strings differ, so the suffix clause
is false of the `script.js` counter. -/
theorem animateStats_suffix_counterexample :
    updateNumberText 100 2000 2000 = "100" ∧
    updateCountText 100 2000 2000 = "100+" ∧
    ("100" : String) ≠ "100+" := by
  refine ⟨?_, ?_, by decide⟩
  · unfold updateNumberText
    norm_num
    rfl
  · unfold updateCountText
    norm_num
    rfl

/-- C2 amended: on every frame of either counter variant the displayed
number is exactly `floor(eased * target)` — including the final frame,
where the snap to the exact target coincides with the floor formula
because the eased progress is exactly 1 — and whenever the clamped
progress reaches 1 the display is the exact target.  The `+` suffix for
targets of at least 100 is appended on every frame by the
`animateStatistics` variant (`updateCount`), while the `script.js`
variant (`updateNumber`) always writes the bare number with no suffix. -/
theorem updateCount_display_formula (targetCount : Nat) (elapsed duration : ℚ) :
    updateCountText targetCount elapsed duration
      = toString (displayedCount targetCount elapsed duration)
        ++ (if targetCount ≥ 100 then "+" else "") ∧
    (counterProgress elapsed duration = 1 →
      updateCountText targetCount elapsed duration
        = toString (targetCount : ℤ) ++ (if targetCount ≥ 100 then "+" else "")) ∧
    updateNumberText targetCount elapsed duration
      = toString (displayedCount targetCount elapsed duration) ∧
    (counterProgress elapsed duration = 1 →
      updateNumberText targetCount elapsed duration = toString (targetCount : ℤ)) := by
  refine ⟨?_, ?_, ?_, ?_⟩
  · unfold updateCountText displayedCount easeOutCubic counterProgress
    by_cases h : min (elapsed / duration) 1 < 1
    · rw [if_pos h]
    · rw [if_neg h]
      have h1 : min (elapsed / duration) 1 = 1 :=
        le_antisymm (min_le_right _ _) (not_lt.mp h)
      rw [h1]
      norm_num
  · intro h
    unfold counterProgress at h
    unfold updateCountText
    rw [h]
    norm_num
  · unfold updateNumberText displayedCount easeOutCubic counterProgress
    by_cases h : min (elapsed / duration) 1 < 1
    · rw [if_pos h, mul_comm]
    · rw [if_neg h]
      have h1 : min (elapsed / duration) 1 = 1 :=
        le_antisymm (min_le_right _ _) (not_lt.mp h)
      rw [h1]
      norm_num
  · intro h
    unfold counterProgress at h
    unfold updateNumberText
    rw [h]
    norm_num

/-- Witness for C2's amended theorem at target 173 on the final frame, in
both variants. -/
theorem updateCount_display_formula_witness :
    counterProgress 2000 2000 = 1 ∧
    updateCountText 173 2000 2000 = toString (173 : ℤ) ++ "+" ∧
    updateNumberText 173 2000 2000 = toString (173 : ℤ) := by
  have hp : counterProgress 2000 2000 = 1 := by
    unfold counterProgress
    norm_num
  have happ := (updateCount_display_formula 173 2000 2000).2.1 hp
  rw [if_pos (by norm_num : (173 : Nat) ≥ 100)] at happ
  exact ⟨hp, happ, (updateCount_display_formula 173 2000 2000).2.2.2 hp⟩

/-! ### Displayed count monotone (C8) -/

/-- C8: with a positive duration, the per-frame displayed value
`floor(easeOutCubic(progress) * target)` is monotonically non-decreasing
in the elapsed time, and it never exceeds the target — so the final snap
to the exact target value never moves the display downward. -/
theorem displayed_count_monotone (targetCount : Nat) (duration e1 e2 : ℚ)
    (hd : 0 < duration) (h12 : e1 ≤ e2) :
    displayedCount targetCount e1 duration ≤ displayedCount targetCount e2 duration ∧
    displayedCount targetCount e2 duration ≤ (targetCount : ℤ) := by
  have hp12 : counterProgress e1 duration ≤ counterProgress e2 duration := by
    unfold counterProgress
    exact min_le_min ((div_le_div_iff_of_pos_right hd).mpr h12) (le_refl 1)
  have hp2le : counterProgress e2 duration ≤ 1 := min_le_right _ _
  have heased : easeOutCubic (counterProgress e1 duration)
      ≤ easeOutCubic (counterProgress e2 duration) := by
    unfold easeOutCubic
    have hc : (1 - counterProgress e2 duration) ^ 3
        ≤ (1 - counterProgress e1 duration) ^ 3 := by
      nlinarith [hp12,
        sq_nonneg ((1 - counterProgress e1 duration) + (1 - counterProgress e2 duration)),
        sq_nonneg ((1 - counterProgress e1 duration) - (1 - counterProgress e2 duration))]
    linarith
  have he2 : easeOutCubic (counterProgress e2 duration) ≤ 1 := by
    unfold easeOutCubic
    have hnn : (0 : ℚ) ≤ 1 - counterProgress e2 duration := by linarith
    have := pow_nonneg hnn 3
    linarith
  constructor
  · unfold displayedCount
    exact Int.floor_le_floor (mul_le_mul_of_nonneg_right heased (Nat.cast_nonneg _))
  · unfold displayedCount
    calc ⌊easeOutCubic (counterProgress e2 duration) * (targetCount : ℚ)⌋
        ≤ ⌊((targetCount : ℕ) : ℚ)⌋ :=
          Int.floor_le_floor (mul_le_of_le_one_left (Nat.cast_nonneg _) he2)
      _ = (targetCount : ℤ) := Int.floor_natCast _

/-- Witness for C8 at target 5, duration 2000 ms, frames at 500 and
1000 ms. -/
theorem displayed_count_monotone_witness :
    (0 : ℚ) < 2000 ∧ (500 : ℚ) ≤ 1000 ∧
    displayedCount 5 500 2000 ≤ displayedCount 5 1000 2000 ∧
    displayedCount 5 1000 2000 ≤ (5 : ℤ) := by
  refine ⟨by norm_num, by norm_num, ?_, ?_⟩
  · exact (displayed_count_monotone 5 2000 500 1000 (by norm_num) (by norm_num)).1
  · exact (displayed_count_monotone 5 2000 500 1000 (by norm_num) (by norm_num)).2
